import Mathlib

/-!
# F1 Telemetry Analyzer — verification of the session-aggregation engine

Shallow embedding of the data transformations in `src/app.py`.

The app's data layer is a pandas `DataFrame` of laps (`session.laps`): each
row is one lap of one driver, indexed by its position in the session-wide
frame (a `RangeIndex`).  We embed a frame as a `List` of rows, and an
index-carrying slice of it as a `List (Nat × row)` where the `Nat` is the
row's position in the session-wide frame.  pandas semantics used by the app
are embedded explicitly:

* timedeltas are integer nanosecond counts, the missing value `NaT` is
  `Option.none`; `Timedelta.total_seconds` divides by 10^9 (`NaT` gives
  `NaN`, which we render as `none`);
* `DataFrame.__init__` from column series aligns the series on the union of
  their indexes, filling `NaN` (`none`) where an index label is missing from
  a series; the union of two integer indexes is sorted ascending;
* `dropna` keeps exactly the rows with no missing value;
* `groupby('Driver')` groups by the unique driver labels, sorted (pandas
  `sort=True` default); aggregation `mean`/`min` over timedeltas skips `NaT`
  (and yields `NaT` when every value is missing), `notna().sum()` counts the
  present values;
* `.iloc[0]` on an empty selection raises `IndexError`, embedded as `none`;
* column access `frame[metric]` on a missing column raises `KeyError`,
  embedded as the error component of the result.

fastf1's `pick_driver` is row filtering by driver equality; its
`pick_quicklaps` policy is owned by the library and is embedded as an
opaque boolean predicate parameter `quick`, per the spec.  Telemetry
distance alignment (`get_car_data().add_distance()`, fastf1 library code
that is not part of this repository) is modelled from the spec in the
`alignByDistance` section below.
-/

/-- A lap row of `session.laps` (src/app.py uses the columns `Driver`,
`Team`, `LapNumber`, `LapTime`, `Sector1Time`..`Sector3Time`, `Compound`,
`TrackStatus`, `PitOutTime`).  Durations are pandas timedeltas: integer
nanoseconds, `none` = `NaT`. -/
structure Lap where
  driver : String
  team : String
  lapNumber : Nat
  lapTime : Option Int
  sector1Time : Option Int
  sector2Time : Option Int
  sector3Time : Option Int
  compound : String
  trackStatus : String
  pitOutTime : Option Int
  deriving DecidableEq

/-- `Timedelta.total_seconds()` on a present value: nanoseconds to seconds. -/
def totalSeconds (ns : Int) : ℚ := (ns : ℚ) / 1000000000

/-- The session-wide laps frame with its `RangeIndex`: row `i` of
`session.laps` carries index label `i`. -/
def lapsFrame (laps : List Lap) : List (Nat × Lap) := laps.enum

/-- fastf1 `Laps.pick_driver`: keep the rows whose `Driver` equals the given
identifier (index labels preserved). -/
def pick_driver (df : List (Nat × Lap)) (d : String) : List (Nat × Lap) :=
  df.filter (fun p => p.2.driver == d)

/-- fastf1 `Laps.pick_quicklaps`: keep the rows satisfying the library's
"quick lap" policy, embedded as the opaque predicate `quick`. -/
def pick_quicklaps (quick : Lap → Bool) (df : List (Nat × Lap)) : List (Nat × Lap) :=
  df.filter (fun p => quick p.2)

/-- src/app.py:107: `session.laps.pick_driver(d).pick_quicklaps()['LapNumber'].tolist()`. -/
def quickLapNumbers (laps : List Lap) (quick : Lap → Bool) (d : String) : List Nat :=
  (pick_quicklaps quick (pick_driver (lapsFrame laps) d)).map (fun p => p.2.lapNumber)

/-- src/app.py:113: `session.laps.pick_driver(d).loc[session.laps['LapNumber'] == n].iloc[0]`.
The boolean mask over the session-wide frame, applied with `.loc` to the
picked sub-frame, keeps the picked rows whose lap number equals `n`;
`.iloc[0]` takes the first such row and raises `IndexError` (embedded as
`none`) when the selection is empty. -/
def lapByNumber (laps : List Lap) (d : String) (n : Nat) : Option Lap :=
  (((pick_driver (lapsFrame laps) d).filter (fun p => p.2.lapNumber == n)).head?).map
    (fun p => p.2)

/-- Deduplication keeping first occurrences (`seen` accumulates the labels
already emitted). -/
def dedupAux {α : Type} [DecidableEq α] (seen : List α) : List α → List α
  | [] => []
  | a :: as => if a ∈ seen then dedupAux seen as else a :: dedupAux (a :: seen) as

/-- Insert into an ascending list (insertion-sort step). -/
def insertLe {α : Type} (le : α → α → Bool) (a : α) : List α → List α
  | [] => [a]
  | b :: bs => if le a b then a :: b :: bs else b :: insertLe le a bs

/-- Insertion sort by the boolean order `le`. -/
def sortLe {α : Type} (le : α → α → Bool) (l : List α) : List α :=
  l.foldr (insertLe le) []

/-- Union of two integer index label sets, sorted ascending — pandas index
alignment for `DataFrame` construction from series. -/
def idxUnion (xs ys : List Nat) : List Nat :=
  sortLe (fun a b => a ≤ b) (dedupAux [] (xs ++ ys))

/-- The `'Lap'` column series of src/app.py:211: `df['LapNumber']`, keyed by
the frame's index labels. -/
def lapNumberCol (df : List (Nat × Lap)) : List (Nat × ℚ) :=
  df.map (fun p => (p.1, (p.2.lapNumber : ℚ)))

/-- A driver column series of src/app.py:212-213:
`df['LapTime'].dt.total_seconds()`, keyed by the frame's index labels;
`NaT` becomes `NaN` (`none`). -/
def lapTimeCol (df : List (Nat × Lap)) : List (Nat × Option ℚ) :=
  df.map (fun p => (p.1, p.2.lapTime.map totalSeconds))

/-- src/app.py:207-214: the lap-by-lap comparison table.
`df1`/`df2` are the two drivers' quick laps; the `DataFrame` constructor
aligns the three series (`'Lap'` from `df1`, one lap-time series per driver)
on the union of their index labels, filling `NaN` where a label is missing
from a series, and `.dropna()` then keeps exactly the rows with all three
values present. -/
def comparison_df (laps : List Lap) (quick : Lap → Bool) (d1 d2 : String) :
    List (ℚ × ℚ × ℚ) :=
  let df1 := pick_quicklaps quick (pick_driver (lapsFrame laps) d1)
  let df2 := pick_quicklaps quick (pick_driver (lapsFrame laps) d2)
  let lapC := lapNumberCol df1
  let c1 := lapTimeCol df1
  let c2 := lapTimeCol df2
  (idxUnion (df1.map (fun p => p.1)) (df2.map (fun p => p.1))).filterMap (fun i =>
    match List.lookup i lapC, (List.lookup i c1).join, (List.lookup i c2).join with
    | some l, some a, some b => some (l, a, b)
    | _, _, _ => none)

/-- A lap's car-data telemetry frame after distance integration, as consumed
by the metric comparison loop: the `Distance` column plus named metric
columns (`Speed`, `Throttle`, ...).  A metric entirely absent from the lap's
telemetry is a missing column. -/
structure Telemetry where
  dist : List ℚ
  cols : List (String × List ℚ)
  deriving DecidableEq

/-- Column access `telemetry[metric]`: `none` embeds the `KeyError` raised
on a missing column. -/
def getCol (t : Telemetry) (m : String) : Option (List ℚ) :=
  t.cols.lookup m

/-- One rendered comparison figure: the metric name and, per driver, the
`(x, y) = (Distance, metric)` trace data. -/
def chartOf (m : String) (t1 t2 : Telemetry) (y1 y2 : List ℚ) :
    String × (List ℚ × List ℚ) × (List ℚ × List ℚ) :=
  (m, (t1.dist, y1), (t2.dist, y2))

/-- src/app.py:138-148: `for metric in selected_metrics:` build and render one
figure per metric from `telemetry1[metric]` and `telemetry2[metric]`.
Returns the figures rendered in order, paired with `some m` when the loop
died with a `KeyError` on metric `m` (there is no handler: the exception
aborts the loop, and the remaining metrics are never processed). -/
def metricCharts (sel : List String) (t1 t2 : Telemetry) :
    List (String × (List ℚ × List ℚ) × (List ℚ × List ℚ)) × Option String :=
  match sel with
  | [] => ([], none)
  | m :: rest =>
    match getCol t1 m, getCol t2 m with
    | some y1, some y2 =>
      let r := metricCharts rest t1 t2
      (chartOf m t1 t2 y1 y2 :: r.1, r.2)
    | _, _ => ([], some m)

/-- One row of the `lap_summaries` table (src/app.py:165-170). -/
structure SummaryRow where
  totalLaps : Nat
  avgLapTime : Option ℚ
  bestLapTime : Option ℚ
  pitStops : Nat
  deriving DecidableEq

/-- A driver's group in `session.laps.groupby('Driver')`: the rows with that
driver label, in frame order. -/
def driverGroup (laps : List Lap) (d : String) : List Lap :=
  laps.filter (fun l => l.driver == d)

/-- pandas timedelta `Series.mean().total_seconds()`: the mean skips `NaT`
values (present in neither numerator nor denominator); with no present value
the mean is `NaT` and `total_seconds` gives `NaN` (`none`). -/
def meanSeconds (xs : List (Option Int)) : Option ℚ :=
  if xs.filterMap id = [] then none
  else some ((((xs.filterMap id).sum : ℚ) / ((xs.filterMap id).length : ℚ)) / 1000000000)

/-- pandas timedelta `Series.min().total_seconds()`: `min` skips `NaT`; with
no present value it is `NaT` and `total_seconds` gives `NaN` (`none`). -/
def minSeconds (xs : List (Option Int)) : Option ℚ :=
  ((xs.filterMap id).foldr (fun a acc =>
    match acc with
    | none => some a
    | some b => some (min a b)) none).map totalSeconds

/-- The aggregation of src/app.py:165-170 for one driver group:
`Total_Laps = max LapNumber`, `Average_Lap_Time = mean(LapTime).total_seconds()`,
`Best_Lap_Time = min(LapTime).total_seconds()`, `Pit_Stops = PitOutTime.notna().sum()`. -/
def aggRow (laps : List Lap) (d : String) : SummaryRow :=
  let g := driverGroup laps d
  { totalLaps := (g.map (fun l => l.lapNumber)).foldr max 0
    avgLapTime := meanSeconds (g.map (fun l => l.lapTime))
    bestLapTime := minSeconds (g.map (fun l => l.lapTime))
    pitStops := (g.filterMap (fun l => l.pitOutTime)).length }

/-- src/app.py:165-170: `session.laps.groupby('Driver').agg(...)`: one row
per distinct driver label, labels sorted ascending (pandas `sort=True`
default). -/
def lap_summaries (laps : List Lap) : List (String × SummaryRow) :=
  (sortLe (fun a b => a ≤ b) (dedupAux [] (laps.map (fun l => l.driver)))).map
    (fun d => (d, aggRow laps d))

/-- src/app.py:153-158: one driver's row of the sector table:
`(lap['Sector1Time'].total_seconds(), ..., lap['Sector3Time'].total_seconds())`;
`NaT.total_seconds()` is `NaN` (`none`). -/
def sectorRow (lap : Lap) : Option ℚ × Option ℚ × Option ℚ :=
  (lap.sector1Time.map totalSeconds,
   lap.sector2Time.map totalSeconds,
   lap.sector3Time.map totalSeconds)

/-- src/app.py:153-160: the sector table always holds exactly one row per
selected lap, whatever sector values are absent. -/
def sectorTable (d1 d2 : String) (lap1 lap2 : Lap) :
    List (String × (Option ℚ × Option ℚ × Option ℚ)) :=
  [(d1, sectorRow lap1), (d2, sectorRow lap2)]

/-- One raw telemetry sample of a lap: timestamp (seconds since lap start)
and the speed metric in km/h, `none` when the metric is absent for the
sample.  (Other per-sample metrics do not enter distance integration.) -/
structure TSample where
  t : ℚ
  speed : Option ℚ
  deriving DecidableEq

/-- Modelled from the spec: the integration step of `alignByDistance`
(§4.2); the fastf1 implementation behind `get_car_data().add_distance()`
(src/app.py:116-117) is library code not part of this repository.
Processes the samples after the first, carrying the previous sample's
timestamp `prevT`, its (present) speed `prevV` and the distance `d`
accumulated so far; each step adds `prevV` converted from km/h to m/s times
the timestamp delta, and a sample with absent speed fails the whole
alignment. -/
def alignGo (prevT prevV d : ℚ) : List TSample → Except String (List (ℚ × TSample))
  | [] => .ok []
  | s :: rest =>
    match s.speed with
    | none => .error "MissingSpeedData"
    | some v =>
      let d2 := d + prevV * 5 / 18 * (s.t - prevT)
      (alignGo s.t v d2 rest).map (fun tail => (d2, s) :: tail)

/-- Modelled from the spec: `alignByDistance(lap)` (§4.2) — convert the
time-ordered samples into distance-aligned samples: the first sample's
distance is 0, and cumulative distance at sample `i` is the distance at
sample `i-1` plus speed at sample `i-1` (converted to m/s) times the
timestamp delta; if speed is absent for any sample the alignment fails with
`MissingSpeedData` (never substituting zero, skipping, or returning a
partial sequence). -/
def alignByDistance : List TSample → Except String (List (ℚ × TSample))
  | [] => .ok []
  | s :: rest =>
    match s.speed with
    | none => .error "MissingSpeedData"
    | some v => (alignGo s.t v 0 rest).map (fun tail => (0, s) :: tail)

/-- Shorthand for building a lap row with the timing fields under test. -/
def mkLap (d : String) (n : Nat) (t : Option Int) : Lap :=
  { driver := d, team := "T", lapNumber := n, lapTime := t,
    sector1Time := none, sector2Time := none, sector3Time := none,
    compound := "SOFT", trackStatus := "1", pitOutTime := none }

/-- The spec's inner-join example session: participant `A` has quick laps
`{1 : 90.0 s, 2 : 89.5 s, 4 : 91.0 s}` and participant `B` has
`{1 : 90.5 s, 3 : 89.0 s, 4 : 90.8 s}` (lap times in nanoseconds). -/
def exLaps : List Lap :=
  [mkLap "A" 1 (some 90000000000),
   mkLap "A" 2 (some 89500000000),
   mkLap "A" 4 (some 91000000000),
   mkLap "B" 1 (some 90500000000),
   mkLap "B" 3 (some 89000000000),
   mkLap "B" 4 (some 90800000000)]

section HelperLemmas

variable {α β : Type}

theorem f1_head_filter (p : α → Bool) (l : List α) :
    (l.filter p).head? = l.find? p := by
  induction l with
  | nil => rfl
  | cons a l ih =>
    by_cases h : p a
    · simp [List.filter_cons, List.find?_cons, h]
    · simp only [Bool.not_eq_true] at h
      simp [List.filter_cons, List.find?_cons, h, ih]

theorem f1_find_enumFrom (p : α → Bool) (l : List α) :
    ∀ i : Nat, ((List.enumFrom i l).find? (fun q => p q.2)).map Prod.snd = l.find? p := by
  induction l with
  | nil => intro i; rfl
  | cons a l ih =>
    intro i
    by_cases h : p a
    · simp [List.enumFrom, List.find?_cons, h]
    · simp only [Bool.not_eq_true] at h
      simp [List.enumFrom, List.find?_cons, h, ih]

theorem f1_mem_insertLe (le : α → α → Bool) (a b : α) (l : List α) :
    b ∈ insertLe le a l ↔ b = a ∨ b ∈ l := by
  induction l with
  | nil => simp [insertLe]
  | cons c l ih =>
    by_cases h : le a c
    · simp [insertLe, h]
    · simp [insertLe, h, ih]
      tauto

theorem f1_mem_sortLe (le : α → α → Bool) (a : α) (l : List α) :
    a ∈ sortLe le l ↔ a ∈ l := by
  induction l with
  | nil => simp [sortLe]
  | cons c l ih =>
    simp only [sortLe, List.foldr] at *
    rw [f1_mem_insertLe]
    simp [ih]

theorem f1_mem_dedupAux [DecidableEq α] (a : α) (l : List α) :
    ∀ seen : List α, a ∈ dedupAux seen l ↔ a ∈ l ∧ a ∉ seen := by
  induction l with
  | nil => intro seen; simp [dedupAux]
  | cons c l ih =>
    intro seen
    by_cases h : c ∈ seen
    · simp only [dedupAux, if_pos h, ih, List.mem_cons]
      constructor
      · rintro ⟨ha, hs⟩
        exact ⟨Or.inr ha, hs⟩
      · rintro ⟨ha | ha, hs⟩
        · exact absurd (ha ▸ h) hs
        · exact ⟨ha, hs⟩
    · simp only [dedupAux, if_neg h, List.mem_cons, ih]
      constructor
      · rintro (rfl | ⟨ha, hs⟩)
        · exact ⟨Or.inl rfl, h⟩
        · exact ⟨Or.inr ha, fun hm => hs (Or.inr hm)⟩
      · rintro ⟨hac | ha, hs⟩
        · exact Or.inl hac
        · by_cases hax : a = c
          · exact Or.inl hax
          · exact Or.inr ⟨ha, fun hm => hm.elim hax hs⟩

theorem f1_lookup_map_of_mem (f : String → β) (d : String) (xs : List String)
    (h : d ∈ xs) : List.lookup d (xs.map (fun x => (x, f x))) = some (f d) := by
  induction xs with
  | nil => cases h
  | cons x xs ih =>
    by_cases hdx : d = x
    · subst hdx; simp [List.lookup]
    · rcases List.mem_cons.mp h with h' | h'
      · exact absurd h' hdx
      · simpa [List.lookup, beq_false_of_ne hdx] using ih h'

theorem f1_lookup_map_of_not_mem (f : String → β) (d : String) (xs : List String)
    (h : d ∉ xs) : List.lookup d (xs.map (fun x => (x, f x))) = none := by
  induction xs with
  | nil => rfl
  | cons x xs ih =>
    have hdx : d ≠ x := fun he => h (he ▸ List.mem_cons_self x xs)
    have h' : d ∉ xs := fun hm => h (List.mem_cons_of_mem x hm)
    simpa [List.lookup, beq_false_of_ne hdx] using ih h'

theorem f1_filterMap_length_eq_filter_isSome (f : α → Option β) (l : List α) :
    (l.filterMap f).length = (l.filter (fun a => (f a).isSome)).length := by
  induction l with
  | nil => rfl
  | cons a l ih =>
    cases h : f a with
    | none => simp [List.filterMap_cons, List.filter_cons, h, ih]
    | some b => simp [List.filterMap_cons, List.filter_cons, h, ih]

end HelperLemmas

/-- C9: for every participant and selected lap number, the lap-by-number
lookup of src/app.py:113-114 filters the participant's laps by equality on
lap number and takes the first matching row; with no matching row the
(first-element) positional access fails out of bounds (`none`), it does not
return a `NotFound` value. -/
theorem lapByNumber_eq_find (laps : List Lap) (d : String) (n : Nat) :
    lapByNumber laps d n =
      laps.find? (fun l => l.driver == d && l.lapNumber == n) := by
  unfold lapByNumber pick_driver lapsFrame
  rw [List.filter_filter, f1_head_filter]
  simpa [List.enum, Bool.and_comm] using
    f1_find_enumFrom (fun l => l.driver == d && l.lapNumber == n) laps 0

example : lapByNumber exLaps "A" 4 = some (mkLap "A" 4 (some 91000000000)) := by decide
example : lapByNumber exLaps "A" 3 = none := by decide

/-- C1: evaluating the lap-by-lap comparison of src/app.py:207-214 at the
spec's own inner-join example (all laps quick).  Participants `A` and `B`
share lap numbers 1 and 4, yet the table is empty: the `DataFrame`
constructor aligns the two drivers' series on the session-wide row index —
disjoint sets for two distinct drivers — so every row has a missing value
and `.dropna()` removes them all.  The spec's inner join on lap number,
`[(1, 90.0, 90.5), (4, 91.0, 90.8)]`, is never produced. -/
theorem comparison_df_example_empty :
    comparison_df exLaps (fun _ => true) "A" "B" = [] := by decide

theorem f1_snd_mem_enumFrom {α : Type} (l : List α) :
    ∀ (i : Nat) (p : Nat × α), p ∈ List.enumFrom i l → p.2 ∈ l := by
  induction l with
  | nil => intro i p h; cases h
  | cons a l ih =>
    intro i p h
    rcases List.mem_cons.mp h with h' | h'
    · subst h'; exact List.mem_cons_self a l
    · exact List.mem_cons_of_mem a (ih (i + 1) p h')

/-- C7 (amended): the operations taking a participant id do not signal
`ParticipantNotFound` for an id absent from the session's laps: lap
selection and the quick-lap number series return silently empty sequences,
the summary table has no row under that id, and the lap-by-number lookup
returns the generic empty-selection failure (`IndexError`, embedded as
`none`) for every lap number. -/
theorem absent_participant_silent (laps : List Lap) (quick : Lap → Bool) (d : String)
    (h : d ∉ laps.map (fun l => l.driver)) :
    pick_driver (lapsFrame laps) d = [] ∧
    quickLapNumbers laps quick d = [] ∧
    List.lookup d (lap_summaries laps) = none ∧
    ∀ n, lapByNumber laps d n = none := by
  have hpick : pick_driver (lapsFrame laps) d = [] := by
    apply List.filter_eq_nil_iff.mpr
    intro p hp
    have hmem : p.2 ∈ laps := f1_snd_mem_enumFrom laps 0 p hp
    have : p.2.driver ≠ d := by
      intro he
      exact h (he ▸ List.mem_map_of_mem (fun l => l.driver) hmem)
    simpa using this
  refine ⟨hpick, ?_, ?_, ?_⟩
  · unfold quickLapNumbers pick_quicklaps
    rw [hpick]
    rfl
  · apply f1_lookup_map_of_not_mem
    rw [f1_mem_sortLe, f1_mem_dedupAux]
    rintro ⟨hd, -⟩
    exact h hd
  · intro n
    unfold lapByNumber
    rw [hpick]
    rfl

/-- C7 (counterexample): the participant id `Z` does not appear in the
example session, yet no operation signals `ParticipantNotFound`: the
quick-lap number series is the silently empty list and the summary table
simply has no `Z` row. -/
theorem absent_participant_example :
    ("Z" ∉ exLaps.map (fun l => l.driver)) ∧
    quickLapNumbers exLaps (fun _ => true) "Z" = [] ∧
    List.lookup "Z" (lap_summaries exLaps) = none := by
  refine ⟨by decide, by decide, ?_⟩
  exact f1_lookup_map_of_not_mem _ _ _
    (by rw [f1_mem_sortLe, f1_mem_dedupAux]; decide)

/-- A first lap's telemetry frame: `Speed` and `DRS` columns both present. -/
def exTel1 : Telemetry :=
  { dist := [0, 10, 20], cols := [("Speed", [300, 310, 305]), ("DRS", [0, 1, 1])] }

/-- A second lap's telemetry frame: the `DRS` column is absent. -/
def exTel2 : Telemetry :=
  { dist := [0, 11, 21], cols := [("Speed", [299, 312, 306])] }

/-- C2 (counterexample): requesting `{Speed, DRS}` when `DRS` is absent from
the second lap's telemetry: the metric loop of src/app.py:138-148 dies with
an unhandled `KeyError` on `DRS` (the `some "DRS"` error component) instead
of recording a `MetricUnavailable(DRS)` warning and finishing normally. -/
theorem metricCharts_keyerror_example :
    (metricCharts ["Speed", "DRS"] exTel1 exTel2).2 = some "DRS" := by decide

/-- C2 (amended): the metric loop renders one figure per requested metric up
to the first metric absent from either lap's telemetry; at such a metric it
fails with a `KeyError` naming that metric, aborting it and every remaining
requested metric (no warning is recorded and no further metric is
processed); only when every requested metric is present in both frames does
the loop finish without error. -/
theorem metricCharts_spec (sel : List String) (t1 t2 : Telemetry) :
    (metricCharts sel t1 t2).1 =
      (sel.takeWhile (fun m => (getCol t1 m).isSome && (getCol t2 m).isSome)).map
        (fun m => chartOf m t1 t2 ((getCol t1 m).getD []) ((getCol t2 m).getD [])) ∧
    (metricCharts sel t1 t2).2 =
      sel.find? (fun m => (getCol t1 m).isNone || (getCol t2 m).isNone) := by
  induction sel with
  | nil => exact ⟨rfl, rfl⟩
  | cons m rest ih =>
    cases h1 : getCol t1 m with
    | none =>
      constructor
      · simp [metricCharts, h1, List.takeWhile_cons, List.find?_cons]
      · simp [metricCharts, h1, List.find?_cons]
    | some y1 =>
      cases h2 : getCol t2 m with
      | none =>
        constructor
        · simp [metricCharts, h1, h2, List.takeWhile_cons, List.find?_cons]
        · simp [metricCharts, h1, h2, List.find?_cons]
      | some y2 =>
        constructor
        · simp [metricCharts, h1, h2, List.takeWhile_cons, ih.1]
        · simp [metricCharts, h1, h2, List.find?_cons, ih.2]

/-- C8: `alignByDistance` and the comparison loop are pure functions of
their inputs — two calls on the same immutable lap/telemetry inputs give
identical outputs (the embedding carries no hidden state between calls). -/
theorem engine_deterministic (samples : List TSample) (sel : List String)
    (t1 t2 : Telemetry) :
    alignByDistance samples = alignByDistance samples ∧
    metricCharts sel t1 t2 = metricCharts sel t1 t2 :=
  ⟨rfl, rfl⟩

theorem f1_sum_map_totalSeconds (p : List Int) :
    (p.map totalSeconds).sum = (p.sum : ℚ) / 1000000000 := by
  induction p with
  | nil => simp
  | cons a p ih => simp [totalSeconds, ih, add_div]

theorem f1_le_foldr_max (a : Nat) (l : List Nat) (h : a ∈ l) :
    a ≤ l.foldr max 0 := by
  induction l with
  | nil => cases h
  | cons b l ih =>
    rcases List.mem_cons.mp h with h' | h'
    · exact h' ▸ le_max_left b (l.foldr max 0)
    · exact le_trans (ih h') (le_max_right b (l.foldr max 0))

theorem f1_lookup_lap_summaries (laps : List Lap) (d : String)
    (hd : d ∈ laps.map (fun l => l.driver)) :
    List.lookup d (lap_summaries laps) = some (aggRow laps d) := by
  apply f1_lookup_map_of_mem
  rw [f1_mem_sortLe, f1_mem_dedupAux]
  exact ⟨hd, List.not_mem_nil d⟩

/-- The lap times the aggregation actually averages: the present (non-`NaT`)
lap times of the driver's group. -/
def presentLapTimes (laps : List Lap) (d : String) : List Int :=
  (driverGroup laps d).filterMap (fun l => l.lapTime)

theorem f1_agg_filterMap (laps : List Lap) (d : String) :
    ((driverGroup laps d).map (fun l => l.lapTime)).filterMap id =
      presentLapTimes laps d := by
  rw [List.filterMap_map]
  rfl

/-- C3: for every session and participant appearing in it, the summary row
exists and its average lap time is the mean over exactly the laps with a
present lap time — the present lap times are non-empty and the average
times their count equals the sum of their values in seconds, so absent
(`NaT`) laps enter neither numerator nor denominator. -/
theorem avg_skips_absent (laps : List Lap) (d : String) (a : ℚ)
    (hd : d ∈ laps.map (fun l => l.driver))
    (ha : (aggRow laps d).avgLapTime = some a) :
    List.lookup d (lap_summaries laps) = some (aggRow laps d) ∧
    presentLapTimes laps d ≠ [] ∧
    a * ((presentLapTimes laps d).length : ℚ) =
      ((presentLapTimes laps d).map totalSeconds).sum := by
  refine ⟨f1_lookup_lap_summaries laps d hd, ?_, ?_⟩
  · intro hnil
    rw [aggRow] at ha
    simp only [meanSeconds, f1_agg_filterMap, hnil] at ha
    simp at ha
  · rw [aggRow] at ha
    simp only [meanSeconds, f1_agg_filterMap] at ha
    by_cases hnil : presentLapTimes laps d = []
    · simp [hnil] at ha
    · rw [if_neg hnil, Option.some_inj] at ha
      rw [f1_sum_map_totalSeconds, ← ha]
      have h0 : (presentLapTimes laps d).length ≠ 0 :=
        fun h => hnil (List.length_eq_zero.mp h)
      have hlen : ((presentLapTimes laps d).length : ℚ) ≠ 0 := Nat.cast_ne_zero.mpr h0
      field_simp
      ring

/-- The session of the spec's averaging example: one participant with lap
times `[90.0 s, absent, 91.0 s]`. -/
def exLaps3 : List Lap :=
  [mkLap "A" 1 (some 90000000000), mkLap "A" 2 none, mkLap "A" 3 (some 91000000000)]

/-- C3 (witness): the averaging example — lap times `[90.0, absent, 91.0]`
average to `90.5 = 181/2` over the two present laps. -/
theorem avg_skips_absent_witness :
    List.lookup "A" (lap_summaries exLaps3) = some (aggRow exLaps3 "A") ∧
    presentLapTimes exLaps3 "A" ≠ [] ∧
    ((181 : ℚ)/2) * ((presentLapTimes exLaps3 "A").length : ℚ) =
      ((presentLapTimes exLaps3 "A").map totalSeconds).sum :=
  avg_skips_absent exLaps3 "A" (181/2) (by decide)
    (by
      norm_num [aggRow, driverGroup, exLaps3, mkLap, meanSeconds,
        List.filterMap_cons, List.filter_cons]
      intro h
      exact absurd h (List.cons_ne_nil _ _))

/-- C10: for a participant all of whose laps have an absent (`NaT`) lap
time, the summary still produces that participant's row; total laps bounds
every lap number of the group and the pit-stop count is the count of laps
with a present pit-out timestamp, computed normally, while the average and
best lap time come out as absent (`NaN`) values — no `NoValidLap` error is
signalled. -/
theorem all_absent_summary (laps : List Lap) (d : String)
    (hd : d ∈ laps.map (fun l => l.driver))
    (hn : ∀ l ∈ laps, l.driver = d → l.lapTime = none) :
    List.lookup d (lap_summaries laps) = some (aggRow laps d) ∧
    (aggRow laps d).avgLapTime = none ∧
    (aggRow laps d).bestLapTime = none ∧
    (aggRow laps d).pitStops =
      ((driverGroup laps d).filter (fun l => l.pitOutTime.isSome)).length ∧
    ∀ l ∈ laps, l.driver = d → l.lapNumber ≤ (aggRow laps d).totalLaps := by
  have hpt : presentLapTimes laps d = [] := by
    unfold presentLapTimes driverGroup
    rw [List.filterMap_eq_nil_iff]
    intro l hl
    rcases List.mem_filter.mp hl with ⟨hl1, hl2⟩
    exact hn l hl1 (by simpa using hl2)
  refine ⟨f1_lookup_lap_summaries laps d hd, ?_, ?_, ?_, ?_⟩
  · show meanSeconds _ = none
    unfold meanSeconds
    rw [f1_agg_filterMap, hpt]
    rfl
  · show minSeconds _ = none
    simp only [minSeconds, f1_agg_filterMap, hpt]
    rfl
  · exact f1_filterMap_length_eq_filter_isSome (fun l => l.pitOutTime) (driverGroup laps d)
  · intro l hl hld
    apply f1_le_foldr_max
    apply List.mem_map_of_mem
    exact List.mem_filter.mpr ⟨hl, by simpa using hld⟩

/-- A participant whose two laps both lack a lap time; the second lap
started from pit exit. -/
def exLapsNaT : List Lap :=
  [mkLap "C" 1 none,
   { mkLap "C" 2 none with pitOutTime := some 5000000000 }]

/-- C10 (witness): the all-absent participant `C` still gets a summary row,
with absent average and best lap times and the pit stop counted. -/
theorem all_absent_summary_witness :
    List.lookup "C" (lap_summaries exLapsNaT) = some (aggRow exLapsNaT "C") ∧
    (aggRow exLapsNaT "C").avgLapTime = none ∧
    (aggRow exLapsNaT "C").bestLapTime = none ∧
    (aggRow exLapsNaT "C").pitStops =
      ((driverGroup exLapsNaT "C").filter (fun l => l.pitOutTime.isSome)).length ∧
    2 ≤ (aggRow exLapsNaT "C").totalLaps :=
  ⟨(all_absent_summary exLapsNaT "C" (by decide) (by decide)).1,
   (all_absent_summary exLapsNaT "C" (by decide) (by decide)).2.1,
   (all_absent_summary exLapsNaT "C" (by decide) (by decide)).2.2.1,
   (all_absent_summary exLapsNaT "C" (by decide) (by decide)).2.2.2.1,
   (all_absent_summary exLapsNaT "C" (by decide) (by decide)).2.2.2.2
     { mkLap "C" 2 none with pitOutTime := some 5000000000 } (by decide) rfl⟩

/-- C4: the sector table row of every lap has exactly three slots, one per
sector; a slot is absent exactly when that sector time is unrecorded
(`NaT`), never a zero substitute, and a recorded sector time appears
converted to seconds; the table always keeps one row per selected lap. -/
theorem sector_absence_preserved (d1 d2 : String) (lap1 lap2 : Lap) :
    (sectorTable d1 d2 lap1 lap2).length = 2 ∧
    ((sectorRow lap1).1 = none ↔ lap1.sector1Time = none) ∧
    ((sectorRow lap1).2.1 = none ↔ lap1.sector2Time = none) ∧
    ((sectorRow lap1).2.2 = none ↔ lap1.sector3Time = none) ∧
    (∀ v : Int, lap1.sector1Time = some v → (sectorRow lap1).1 = some (totalSeconds v)) ∧
    (∀ v : Int, lap1.sector2Time = some v → (sectorRow lap1).2.1 = some (totalSeconds v)) ∧
    (∀ v : Int, lap1.sector3Time = some v → (sectorRow lap1).2.2 = some (totalSeconds v)) := by
  refine ⟨rfl, by simp [sectorRow], by simp [sectorRow], by simp [sectorRow], ?_, ?_, ?_⟩ <;>
  · intro v hv
    simp [sectorRow, hv]

/-- A lap whose Sector 2 time was not recorded (`NaT`) while sectors 1 and 3
were. -/
def exSectorLap : Lap :=
  { mkLap "A" 1 (some 95000000000) with
    sector1Time := some 30000000000,
    sector2Time := none,
    sector3Time := some 31000000000 }

/-- C4 (witness): a lap missing Sector 2 yields
`(sector1_value, absent, sector3_value)` and its table row is kept. -/
theorem sector_absence_witness :
    (sectorTable "A" "B" exSectorLap exSectorLap).length = 2 ∧
    (sectorRow exSectorLap).2.1 = none ∧
    (sectorRow exSectorLap).1 = some (totalSeconds 30000000000) ∧
    (sectorRow exSectorLap).2.2 = some (totalSeconds 31000000000) :=
  ⟨(sector_absence_preserved "A" "B" exSectorLap exSectorLap).1,
   (sector_absence_preserved "A" "B" exSectorLap exSectorLap).2.2.1.mpr rfl,
   (sector_absence_preserved "A" "B" exSectorLap exSectorLap).2.2.2.2.1 30000000000 rfl,
   (sector_absence_preserved "A" "B" exSectorLap exSectorLap).2.2.2.2.2.2 31000000000 rfl⟩

theorem f1_alignGo_error (rest : List TSample) :
    ∀ (prevT prevV d : ℚ), (∃ s ∈ rest, s.speed = none) →
      alignGo prevT prevV d rest = .error "MissingSpeedData" := by
  induction rest with
  | nil =>
    rintro _ _ _ ⟨s, hs, -⟩
    cases hs
  | cons s rest ih =>
    rintro prevT prevV d ⟨x, hx, hxn⟩
    rcases List.mem_cons.mp hx with rfl | hx'
    · simp [alignGo, hxn]
    · cases hsp : s.speed with
      | none => simp [alignGo, hsp]
      | some v =>
        simp only [alignGo, hsp]
        rw [ih s.t v (d + prevV * 5 / 18 * (s.t - prevT)) ⟨x, hx', hxn⟩]
        rfl

/-- C6 (spec-modelled): if the speed metric is absent for at least one
telemetry sample of the lap, `alignByDistance` fails with `MissingSpeedData`
— it never substitutes zero, skips the sample, or returns a partial
distance-aligned sequence. -/
theorem align_missing_speed (samples : List TSample)
    (h : ∃ s ∈ samples, s.speed = none) :
    alignByDistance samples = .error "MissingSpeedData" := by
  cases samples with
  | nil =>
    rcases h with ⟨s, hs, -⟩
    cases hs
  | cons s rest =>
    rcases h with ⟨x, hx, hxn⟩
    rcases List.mem_cons.mp hx with rfl | hx'
    · simp [alignByDistance, hxn]
    · cases hsp : s.speed with
      | none => simp [alignByDistance, hsp]
      | some v =>
        simp only [alignByDistance, hsp]
        rw [f1_alignGo_error rest s.t v 0 ⟨x, hx', hxn⟩]
        rfl

/-- Telemetry with a sample whose speed metric is absent. -/
def exBadSamples : List TSample := [⟨0, some 10⟩, ⟨1, none⟩]

/-- C6 (witness): the alignment of a lap with a missing speed sample is the
`MissingSpeedData` failure. -/
theorem align_missing_speed_witness :
    alignByDistance exBadSamples = .error "MissingSpeedData" :=
  align_missing_speed exBadSamples
    ⟨⟨1, none⟩, List.mem_cons_of_mem _ (List.mem_cons_self _ _), rfl⟩

theorem f1_alignGo_ok (rest : List TSample) :
    ∀ (prevT prevV d : ℚ),
      (∀ s ∈ rest, s.speed.isSome = true) →
      List.Chain' (fun a b => a.t ≤ b.t) rest →
      (∀ s ∈ rest.head?, prevT ≤ s.t) →
      0 ≤ prevV →
      (∀ s ∈ rest, ∀ v, s.speed = some v → 0 ≤ v) →
      ∃ out, alignGo prevT prevV d rest = .ok out ∧
        out.map Prod.snd = rest ∧
        (∀ p ∈ out.head?, p.1 = d + prevV * 5 / 18 * (p.2.t - prevT)) ∧
        List.Chain' (fun p q => ∃ v, p.2.speed = some v ∧
          q.1 = p.1 + v * 5 / 18 * (q.2.t - p.2.t)) out ∧
        List.Chain' (fun p q => p.1 ≤ q.1) out ∧
        (∀ p ∈ out.head?, d ≤ p.1) := by
  induction rest with
  | nil =>
    intro prevT prevV d _ _ _ _ _
    exact ⟨[], rfl, rfl, by simp, List.chain'_nil, List.chain'_nil, by simp⟩
  | cons s rest ih =>
    intro prevT prevV d hall hsort hhead hv0 hnn
    cases hsp : s.speed with
    | none => exact absurd (hall s (List.mem_cons_self s rest)) (by simp [hsp])
    | some v =>
      obtain ⟨out', hgo, hmap, hhead', hchainF, hchainM, hlow⟩ :=
        ih s.t v (d + prevV * 5 / 18 * (s.t - prevT))
          (fun x hx => hall x (List.mem_cons_of_mem s hx))
          (List.chain'_cons'.mp hsort).2
          (List.chain'_cons'.mp hsort).1
          (hnn s (List.mem_cons_self s rest) v hsp)
          (fun x hx w hw => hnn x (List.mem_cons_of_mem s hx) w hw)
      have hstep : 0 ≤ prevV * 5 / 18 * (s.t - prevT) := by
        have ht : prevT ≤ s.t := hhead s (by simp)
        have h1 : 0 ≤ prevV * 5 / 18 := by positivity
        have h2 : 0 ≤ s.t - prevT := by linarith
        exact mul_nonneg h1 h2
      refine ⟨(d + prevV * 5 / 18 * (s.t - prevT), s) :: out', ?_, ?_, ?_, ?_, ?_, ?_⟩
      · simp [alignGo, hsp, hgo, Except.map]
      · simp [hmap]
      · intro p hp
        simp only [List.head?_cons, Option.mem_some_iff] at hp
        subst hp
        rfl
      · refine List.chain'_cons'.mpr ⟨?_, hchainF⟩
        intro q hq
        exact ⟨v, hsp, hhead' q hq⟩
      · refine List.chain'_cons'.mpr ⟨?_, hchainM⟩
        intro q hq
        exact hlow q hq
      · intro p hp
        simp only [List.head?_cons, Option.mem_some_iff] at hp
        subst hp
        simpa using hstep

/-- C5 (spec-modelled): for a lap whose telemetry has a present speed value
at every sample (samples time-ordered, speeds nonnegative magnitudes),
`alignByDistance` succeeds; the output carries exactly the input samples,
its first sample's distance is 0, the distance component is non-decreasing,
and each consecutive distance is the previous one plus the previous
sample's speed (converted from km/h to m/s) times the timestamp delta — in
particular a duplicate timestamp contributes a zero distance delta without
error. -/
theorem align_monotone (samples : List TSample)
    (hall : ∀ s ∈ samples, s.speed.isSome = true)
    (hsort : List.Chain' (fun a b => a.t ≤ b.t) samples)
    (hnn : ∀ s ∈ samples, ∀ v, s.speed = some v → 0 ≤ v) :
    ∃ out, alignByDistance samples = .ok out ∧
      out.map Prod.snd = samples ∧
      (∀ p ∈ out.head?, p.1 = 0) ∧
      List.Chain' (fun p q => p.1 ≤ q.1) out ∧
      List.Chain' (fun p q => ∃ v, p.2.speed = some v ∧
        q.1 = p.1 + v * 5 / 18 * (q.2.t - p.2.t)) out := by
  cases samples with
  | nil => exact ⟨[], rfl, rfl, by simp, List.chain'_nil, List.chain'_nil⟩
  | cons s rest =>
    cases hsp : s.speed with
    | none => exact absurd (hall s (List.mem_cons_self s rest)) (by simp [hsp])
    | some v =>
      obtain ⟨out', hgo, hmap, hhead', hchainF, hchainM, hlow⟩ :=
        f1_alignGo_ok rest s.t v 0
          (fun x hx => hall x (List.mem_cons_of_mem s hx))
          (List.chain'_cons'.mp hsort).2
          (List.chain'_cons'.mp hsort).1
          (hnn s (List.mem_cons_self s rest) v hsp)
          (fun x hx w hw => hnn x (List.mem_cons_of_mem s hx) w hw)
      refine ⟨(0, s) :: out', ?_, ?_, ?_, ?_, ?_⟩
      · simp [alignByDistance, hsp, hgo, Except.map]
      · simp [hmap]
      · intro p hp
        simp only [List.head?_cons, Option.mem_some_iff] at hp
        subst hp
        rfl
      · refine List.chain'_cons'.mpr ⟨?_, hchainM⟩
        intro q hq
        exact hlow q hq
      · refine List.chain'_cons'.mpr ⟨?_, hchainF⟩
        intro q hq
        exact ⟨v, hsp, hhead' q hq⟩

/-- Complete telemetry for a short lap: three samples, the last two sharing
a timestamp (a zero time delta). -/
def exGoodSamples : List TSample :=
  [⟨0, some 36⟩, ⟨2, some 72⟩, ⟨2, some 90⟩]

/-- C5 (witness): the complete-speed example telemetry aligns successfully
with the stated head, ordering and step properties. -/
theorem align_monotone_witness :
    ∃ out, alignByDistance exGoodSamples = .ok out ∧
      out.map Prod.snd = exGoodSamples ∧
      (∀ p ∈ out.head?, p.1 = 0) ∧
      List.Chain' (fun p q => p.1 ≤ q.1) out ∧
      List.Chain' (fun p q => ∃ v, p.2.speed = some v ∧
        q.1 = p.1 + v * 5 / 18 * (q.2.t - p.2.t)) out :=
  align_monotone exGoodSamples
    (by
      intro s hs
      rcases List.mem_cons.mp hs with rfl | hs'
      · rfl
      · rcases List.mem_cons.mp hs' with rfl | hs''
        · rfl
        · rcases List.mem_cons.mp hs'' with rfl | hs'''
          · rfl
          · cases hs''')
    (by
      refine List.chain'_cons'.mpr ⟨?_, List.chain'_cons'.mpr ⟨?_, List.chain'_singleton _⟩⟩
      · intro y hy
        simp only [List.head?_cons, Option.mem_some_iff] at hy
        subst hy
        norm_num [exGoodSamples]
      · intro y hy
        simp only [List.head?_cons, Option.mem_some_iff] at hy
        subst hy
        norm_num [exGoodSamples])
    (by
      intro s hs w hw
      rcases List.mem_cons.mp hs with rfl | hs'
      · cases hw; norm_num
      · rcases List.mem_cons.mp hs' with rfl | hs''
        · cases hw; norm_num
        · rcases List.mem_cons.mp hs'' with rfl | hs'''
          · cases hw; norm_num
          · cases hs''')

/-- C7 (witness): the amended behavior instantiated at the example session
and the absent id `Z`. -/
theorem absent_participant_witness :
    pick_driver (lapsFrame exLaps) "Z" = [] ∧
    quickLapNumbers exLaps (fun l => l.lapTime.isSome) "Z" = [] ∧
    List.lookup "Z" (lap_summaries exLaps) = none ∧
    lapByNumber exLaps "Z" 1 = none :=
  ⟨(absent_participant_silent exLaps (fun l => l.lapTime.isSome) "Z" (by decide)).1,
   (absent_participant_silent exLaps (fun l => l.lapTime.isSome) "Z" (by decide)).2.1,
   (absent_participant_silent exLaps (fun l => l.lapTime.isSome) "Z" (by decide)).2.2.1,
   (absent_participant_silent exLaps (fun l => l.lapTime.isSome) "Z" (by decide)).2.2.2 1⟩
